import Mathlib

/-!
Verification of the rank-resolution and scoring core of the SEO-RANK-TASK
repository.

The first half embeds `serp_api_client.py` (domain/URL normalisation and the
three rank lookups); the second half embeds `seo_analyzer.py` (the page
analyzer and its heuristic score).  Python strings are modelled as Lean
`String`/`List Char` (ASCII fragment: `str.lower`, `str.strip` and the regex
`\s` class are modelled on their ASCII behaviour), Python `None` as `Option`,
Python floats as exact rationals `ℚ`, and Python ints as `Int`/`Nat`.
-/

/-- Set of characters stripped by Python `str.strip()` (ASCII fragment of the
Python whitespace class, also the ASCII fragment of the regex class `\s`). -/
def pyIsSpace (c : Char) : Bool :=
  c == ' ' || c == '\t' || c == '\n' || c == '\r' || c == '\x0b' || c == '\x0c'

/-- Model of Python `str.strip()` on the character list of a string. -/
def pyStripL (l : List Char) : List Char :=
  ((l.dropWhile pyIsSpace).reverse.dropWhile pyIsSpace).reverse

/-- Model of Python `str.strip()`. -/
def pyStrip (s : String) : String :=
  ⟨pyStripL s.data⟩

/-- Model of Python `str.lower()` (ASCII: per-character `Char.toLower`). -/
def pyLower (s : String) : String :=
  ⟨s.data.map Char.toLower⟩

/-- Model of the Python substring test `needle in hay` on character lists. -/
def pySub (needle : List Char) : List Char → Bool
  | [] => needle.isEmpty
  | c :: t => needle.isPrefixOf (c :: t) || pySub needle t

/-- Model of the Python substring test `needle in hay` on strings. -/
def pyIn (needle hay : String) : Bool :=
  pySub needle.data hay.data

/-- Model of Python `s.startswith(p)`. -/
def pyStartsWith (s p : String) : Bool :=
  p.data.isPrefixOf s.data

/-- Model of Python `s.endswith(p)`. -/
def pyEndsWith (s p : String) : Bool :=
  p.data.isSuffixOf s.data

/-- Model of Python `s.rstrip("/")`: remove every trailing `'/'`. -/
def rstripSlashL (l : List Char) : List Char :=
  (l.reverse.dropWhile (· == '/')).reverse

/-- Model of Python `s.rstrip("/")` on strings. -/
def rstripSlash (s : String) : String :=
  ⟨rstripSlashL s.data⟩

/-!
Model of `urllib.parse.urlparse(url).netloc` as used by `extract_domain`:
`urlsplit` strips leading C0-control/space characters, removes every tab,
carriage return and newline, drops a leading `scheme:` when every character
before the first `':'` is a scheme character, and, when the remainder starts
with `"//"`, reads the network location up to the first `'/'`, `'?'` or
`'#'` (otherwise the network location is empty).
-/

/-- Characters allowed in a URL scheme by `urllib.parse`. -/
def schemeChars : List Char :=
  "abcdefghijklmnopqrstuvwxyzABCDEFGHIJKLMNOPQRSTUVWXYZ0123456789+-.".data

/-- Scan for the `':'` ending a scheme; fails on the first non-scheme
character, mirroring the all-scheme-characters check of `urlsplit`. -/
def schemeTail : List Char → Option (List Char)
  | [] => none
  | c :: rest =>
    if c = ':' then some rest
    else if schemeChars.contains c then schemeTail rest
    else none

/-- Drop a leading `scheme:` as `urlsplit` does: only when the first `':'`
occurs at a positive index and all characters before it are scheme
characters. -/
def dropScheme (url : List Char) : List Char :=
  match url with
  | [] => []
  | c :: rest =>
    if c = ':' then url
    else if schemeChars.contains c then
      match schemeTail rest with
      | some r => r
      | none => url
    else url

/-- Model of `urllib.parse.urlparse(url).netloc` on character lists. -/
def urlparseNetloc (l : List Char) : List Char :=
  let url := l.dropWhile (fun c => decide (c.toNat ≤ 32))
  let url := url.filter (fun c => !(c == '\t' || c == '\r' || c == '\n'))
  let url := dropScheme url
  match url with
  | '/' :: '/' :: rest => rest.takeWhile (fun c => !(c == '/' || c == '?' || c == '#'))
  | _ => []

/-- Body of `extract_domain` on character lists: lowercase the network
location and strip one leading `"www."`. -/
def extractDomainL (l : List Char) : List Char :=
  let host := (urlparseNetloc l).map Char.toLower
  if "www.".data.isPrefixOf host then host.drop 4 else host

/-- `extract_domain` from `serp_api_client.py`. -/
def extract_domain (url : String) : String :=
  ⟨extractDomainL url.data⟩

/-- Body of `normalize_target_domain` on character lists. -/
def normalizeTargetDomainL (l : List Char) : List Char :=
  let text := (pyStripL l).map Char.toLower
  if "http://".data.isPrefixOf text || "https://".data.isPrefixOf text then
    extractDomainL text
  else
    let text := if text.contains '/' then text.takeWhile (· ≠ '/') else text
    if "www.".data.isPrefixOf text then text.drop 4 else text

/-- `normalize_target_domain` from `serp_api_client.py`. -/
def normalize_target_domain (domain_or_url : String) : String :=
  ⟨normalizeTargetDomainL domain_or_url.data⟩

/-- One SERP entry as consumed by the rank lookups: the two dictionary keys
they read, each possibly absent (`dict.get`). -/
structure SerpResult where
  link : Option String
  position : Option Int
deriving DecidableEq, Repr

/-- Domain-containment test of `find_domain_rank` / `find_all_domain_positions`:
`domain == target_domain or domain.endswith("." + target_domain)`. -/
def domainMatch (target_domain link : String) : Bool :=
  let domain := extract_domain link
  domain == target_domain || pyEndsWith domain ("." ++ target_domain)

/-- Loop of `find_domain_rank`: entries with a falsy link or a missing
position are skipped; the first domain match is returned. -/
def find_domain_rank_go (target_domain : String) : List SerpResult → Option Int × Option String
  | [] => (none, none)
  | r :: rest =>
    match r.link, r.position with
    | some link, some position =>
      if link = "" then find_domain_rank_go target_domain rest
      else if domainMatch target_domain link then (some position, some link)
      else find_domain_rank_go target_domain rest
    | _, _ => find_domain_rank_go target_domain rest

/-- `find_domain_rank` from `serp_api_client.py`. -/
def find_domain_rank (organic_results : List SerpResult) (target_domain : String) :
    Option Int × Option String :=
  find_domain_rank_go (normalize_target_domain target_domain) organic_results

/-- One element of the list built by `find_all_domain_positions`. -/
structure DomainHit where
  position : Int
  url : String
deriving DecidableEq, Repr

/-- Comparison used by the defensive `hits.sort(key=lambda x: x["position"])`. -/
def hitLE (a b : DomainHit) : Prop :=
  a.position ≤ b.position

instance : DecidableRel hitLE := fun a b => Int.decLe a.position b.position

instance : IsTotal DomainHit hitLE := ⟨fun a b => Int.le_total a.position b.position⟩

instance : IsTrans DomainHit hitLE := ⟨fun _ _ _ => Int.le_trans⟩

/-- Loop of `find_all_domain_positions`, collecting every match in scan
order (before the final sort). -/
def find_all_domain_positions_go (target_domain : String) : List SerpResult → List DomainHit
  | [] => []
  | r :: rest =>
    match r.link, r.position with
    | some link, some position =>
      if link = "" then find_all_domain_positions_go target_domain rest
      else if domainMatch target_domain link then
        ⟨position, link⟩ :: find_all_domain_positions_go target_domain rest
      else find_all_domain_positions_go target_domain rest
    | _, _ => find_all_domain_positions_go target_domain rest

/-- `find_all_domain_positions` from `serp_api_client.py`; the final
`hits.sort` (a stable sort by position) is modelled by insertion sort. -/
def find_all_domain_positions (organic_results : List SerpResult) (target_domain : String) :
    List DomainHit :=
  List.insertionSort hitLE
    (find_all_domain_positions_go (normalize_target_domain target_domain) organic_results)

/-- URL-matching test of `find_url_rank`:
`link_norm == target_norm or link_norm.startswith(target_norm + "?")`. -/
def urlMatch (target_norm link : String) : Bool :=
  let link_norm := rstripSlash link
  link_norm == target_norm || pyStartsWith link_norm (target_norm ++ "?")

/-- Loop of `find_url_rank`. -/
def find_url_rank_go (target_norm : String) : List SerpResult → Option Int × Option String
  | [] => (none, none)
  | r :: rest =>
    match r.link, r.position with
    | some link, some position =>
      if link = "" then find_url_rank_go target_norm rest
      else if urlMatch target_norm link then (some position, some link)
      else find_url_rank_go target_norm rest
    | _, _ => find_url_rank_go target_norm rest

/-- `find_url_rank` from `serp_api_client.py`: strips the raw target, fails
fast on an empty target, prefixes `"https://"` when the target starts with
`"www."`, strips trailing slashes, then scans for the first match. -/
def find_url_rank (organic_results : List SerpResult) (target_url : String) :
    Option Int × Option String :=
  let target_url := pyStrip target_url
  if target_url = "" then (none, none)
  else
    let target_url := if pyStartsWith target_url "www." then "https://" ++ target_url else target_url
    find_url_rank_go (rstripSlash target_url) organic_results

/-!
Embedding of `seo_analyzer.py`.  The BeautifulSoup front-end (title, meta
description, h1 and `get_text` extraction) is modelled by a small
tag-stream parser for the `html.parser` behaviour on plain tag/text
documents (no comments, entities, or exotic markup); the scoring logic
downstream of the extraction is embedded verbatim and is stated for
arbitrary extraction results.
-/

/-- One token of the HTML tag stream: a tag (with its lowercased name and
its raw inside) or a text node. -/
inductive HtmlTok where
  | tag (name : String) (raw : String)
  | text (s : String)
deriving DecidableEq, Repr

/-- Lowercased tag name: the characters of the tag's inside up to the first
space (html.parser lowercases element names). -/
def tagNameOf (inside : List Char) : String :=
  ⟨(inside.takeWhile (· ≠ ' ')).map Char.toLower⟩

/-- Fuel-driven tokenizer splitting an HTML string into tags (`<...>`) and
text runs; the first argument is a fuel spine at least as long as the
second (each step consumes at least one character). -/
def tokenizeHtmlF : List Char → List Char → List HtmlTok
  | _, [] => []
  | [], _ => []
  | _ :: fuel, '<' :: rest =>
    let inside := rest.takeWhile (· ≠ '>')
    HtmlTok.tag (tagNameOf inside) ⟨inside⟩ ::
      tokenizeHtmlF fuel ((rest.dropWhile (· ≠ '>')).drop 1)
  | _ :: fuel, c :: rest =>
    HtmlTok.text ⟨c :: rest.takeWhile (· ≠ '<')⟩ ::
      tokenizeHtmlF fuel (rest.dropWhile (· ≠ '<'))

/-- Tokenize an HTML string (the string fuels its own traversal). -/
def tokenizeHtml (l : List Char) : List HtmlTok :=
  tokenizeHtmlF l l

/-- Tokens after the first opening tag with the given name, if any
(`soup.find(name)`). -/
def afterTag (nm : String) : List HtmlTok → Option (List HtmlTok)
  | [] => none
  | HtmlTok.tag n _ :: rest => if n = nm then some rest else afterTag nm rest
  | HtmlTok.text _ :: rest => afterTag nm rest

/-- Text of an element: stripped text runs up to the matching closing tag,
concatenated (`tag.get_text(strip=True)`). -/
def innerTextTo (close : String) : List HtmlTok → List Char
  | [] => []
  | HtmlTok.tag n _ :: rest => if n = close then [] else innerTextTo close rest
  | HtmlTok.text s :: rest => pyStripL s.data ++ innerTextTo close rest

/-- Model of `soup.find(nm).get_text(strip=True)`, defaulting to `""`. -/
def firstTagText (nm : String) (toks : List HtmlTok) : String :=
  match afterTag nm toks with
  | some rest => ⟨innerTextTo ("/" ++ nm) rest⟩
  | none => ""

/-- Tokens after the suffix of `pat` inside `l`, scanning left to right. -/
def afterSubF : Nat → List Char → List Char → Option (List Char)
  | 0, _, _ => none
  | _ + 1, pat, [] => if pat.isEmpty then some [] else none
  | fuel + 1, pat, c :: t =>
    if pat.isPrefixOf (c :: t) then some ((c :: t).drop pat.length)
    else afterSubF fuel pat t

/-- Characters after the first occurrence of `pat` in `l`. -/
def afterSub (pat l : List Char) : Option (List Char) :=
  afterSubF (l.length + 1) pat l

/-- Model of `soup.find("meta", attrs={"name": "description"})` followed by
`tag.get("content", "").strip()`: the first `meta` tag whose raw inside
carries `name="description"`, its double-quoted `content` attribute value,
stripped (restricted to lowercase, double-quoted attributes). -/
def metaDescriptionOf : List HtmlTok → String
  | [] => ""
  | HtmlTok.tag n raw :: rest =>
    if n = "meta" && pySub "name=\"description\"".data raw.data then
      match afterSub "content=\"".data raw.data with
      | some r => ⟨pyStripL (r.takeWhile (· ≠ '"'))⟩
      | none => ""
    else metaDescriptionOf rest
  | HtmlTok.text _ :: rest => metaDescriptionOf rest

/-- Tokens after the closing tag of `nm` (used to drop decomposed
`script`/`style`/`noscript` subtrees). -/
def skipPastClose (nm : String) : List HtmlTok → List HtmlTok
  | [] => []
  | HtmlTok.tag n _ :: rest => if n = "/" ++ nm then rest else skipPastClose nm rest
  | HtmlTok.text _ :: rest => skipPastClose nm rest

/-- Fuel-driven collection of every text run outside the decomposed
`script`/`style`/`noscript` elements; the first argument is a fuel spine at
least as long as the second. -/
def bodyStringsF : List HtmlTok → List HtmlTok → List String
  | _, [] => []
  | [], _ => []
  | _ :: fuel, HtmlTok.tag n _ :: rest =>
    if n = "script" || n = "style" || n = "noscript" then
      bodyStringsF fuel (skipPastClose n rest)
    else bodyStringsF fuel rest
  | _ :: fuel, HtmlTok.text s :: rest => s :: bodyStringsF fuel rest

/-- Every text run of the decomposed soup, in document order. -/
def bodyStrings (toks : List HtmlTok) : List String :=
  bodyStringsF toks toks

/-- Model of `" ".join` (the separator of `soup.get_text(separator=" ")`). -/
def joinSpace : List String → List Char
  | [] => []
  | [s] => s.data
  | s :: rest => s.data ++ ' ' :: joinSpace rest

/-- Result of the BeautifulSoup extraction used by `analyze_page`. -/
structure ParsedPage where
  title : String
  meta_description : String
  h1 : String
  text : String
deriving DecidableEq, Repr

/-- Model of the BeautifulSoup front-end of `analyze_page` (lines 41-59 of
`seo_analyzer.py`): title, meta description and h1 extraction, decomposition
of script/style/noscript, and `soup.get_text(separator=" ")`. -/
def parseHtml (html : String) : ParsedPage :=
  let toks := tokenizeHtml html.data
  { title := firstTagText "title" toks
    meta_description := metaDescriptionOf toks
    h1 := firstTagText "h1" toks
    text := ⟨joinSpace (bodyStrings toks)⟩ }

/-- Replace each maximal run of whitespace by a single space: model of
`re.sub(r"\s+", " ", text)` (step 1: each whitespace character becomes a
space, step 2: runs of spaces are squeezed). -/
def squeezeSpaces : List Char → List Char
  | [] => []
  | [c] => [c]
  | a :: b :: t =>
    if a = ' ' ∧ b = ' ' then squeezeSpaces (b :: t) else a :: squeezeSpaces (b :: t)

/-- Model of `re.sub(r"\s+", " ", text)` on character lists. -/
def collapseWs (l : List Char) : List Char :=
  squeezeSpaces (l.map (fun c => if pyIsSpace c then ' ' else c))

/-- Model of Python `text.split(" ")`: split on every single space, keeping
empty fields. -/
def splitOnSpace : List Char → List (List Char)
  | [] => [[]]
  | c :: t =>
    if c = ' ' then [] :: splitOnSpace t
    else
      match splitOnSpace t with
      | [] => [[c]]
      | h :: r => (c :: h) :: r

/-- Word list of `analyze_page`: `[w for w in text.split(" ") if w.strip()]`. -/
def pyWords (text : List Char) : List (List Char) :=
  (splitOnSpace text).filter (fun w => !(pyStripL w).isEmpty)

/-- Fuel-driven model of Python `hay.count(needle)` for a non-empty needle:
non-overlapping occurrences, scanning left to right; the first list is a
fuel spine at least as long as the hay. -/
def pyCountF (needle : List Char) : List Char → List Char → Nat
  | _, [] => 0
  | [], _ => 0
  | _ :: fuel, c :: t =>
    if needle.isPrefixOf (c :: t) then 1 + pyCountF needle fuel ((c :: t).drop needle.length)
    else pyCountF needle fuel t

/-- Model of Python `hay.count(needle)` (`"".count` gives `len + 1`). -/
def pyCount (needle hay : List Char) : Nat :=
  if needle.isEmpty then hay.length + 1 else pyCountF needle hay hay

/-- Model of Python `keyword.replace(" ", "-")`. -/
def replaceSpaceDash (s : String) : String :=
  ⟨s.data.map (fun c => if c = ' ' then '-' else c)⟩

/-- The record returned by `analyze_page`. -/
structure PageMetrics where
  url : String
  title : String
  meta_description : String
  h1 : String
  word_count : Nat
  keyword_in_title : Bool
  keyword_in_description : Bool
  keyword_in_h1 : Bool
  keyword_in_url : Bool
  keyword_density : ℚ
  score : Nat
deriving DecidableEq, Repr

/-- The zeroed/empty `PageMetrics` returned when `html` is falsy. -/
def zeroMetrics (url : String) : PageMetrics :=
  { url := url, title := "", meta_description := "", h1 := "", word_count := 0
    keyword_in_title := false, keyword_in_description := false
    keyword_in_h1 := false, keyword_in_url := false
    keyword_density := 0, score := 0 }

/-- Body of `analyze_page` downstream of the BeautifulSoup extraction
(lines 59-102 of `seo_analyzer.py`), for an already lowercased keyword. -/
def analyze_page_core (p : ParsedPage) (url : String) (keyword_lower : String) : PageMetrics :=
  let text : String := ⟨collapseWs p.text.data⟩
  let words := pyWords text.data
  let word_count := words.length
  let text_lower := pyLower text
  let keyword_count := pyCount keyword_lower.data text_lower.data
  let keyword_density : ℚ := if word_count > 0 then (keyword_count : ℚ) / (word_count : ℚ) else 0
  let keyword_in_title := pyIn keyword_lower (pyLower p.title)
  let keyword_in_description := pyIn keyword_lower (pyLower p.meta_description)
  let keyword_in_h1 := pyIn keyword_lower (pyLower p.h1)
  let keyword_in_url :=
    pyIn (replaceSpaceDash keyword_lower) (pyLower url) || pyIn keyword_lower (pyLower url)
  let score :=
    (if keyword_in_title then 2 else 0) +
    (if keyword_in_h1 then 2 else 0) +
    (if keyword_in_description then 1 else 0) +
    (if keyword_in_url then 1 else 0) +
    (if 800 ≤ word_count ∧ word_count ≤ 2500 then 2 else 0) +
    (if (0.005 : ℚ) ≤ keyword_density ∧ keyword_density ≤ (0.03 : ℚ) then 1 else 0)
  { url := url, title := p.title, meta_description := p.meta_description, h1 := p.h1
    word_count := word_count
    keyword_in_title := keyword_in_title
    keyword_in_description := keyword_in_description
    keyword_in_h1 := keyword_in_h1
    keyword_in_url := keyword_in_url
    keyword_density := keyword_density
    score := score }

/-- `analyze_page` from `seo_analyzer.py`: a falsy `html` (absent or empty)
yields the zeroed record, otherwise the page is parsed and scored. -/
def analyze_page (html : Option String) (url : String) (keyword : String) : PageMetrics :=
  match html with
  | none => zeroMetrics url
  | some h =>
    if h = "" then zeroMetrics url
    else analyze_page_core (parseHtml h) url (pyLower keyword)

/-!
Spec-side definitions: the claims' predicates and reference functions,
written from the specification's words, to be compared with the embedded
code above.
-/

/-- Boolean comparison of two entries by their (possibly absent) positions;
entries lacking a position are unconstrained. -/
def posLEb (a b : SerpResult) : Bool :=
  match a.position, b.position with
  | some p, some q => p ≤ q
  | _, _ => true

/-- Ordering invariant of the spec's data model: SERP responses arrive
sorted ascending by `position`. -/
def posLE (a b : SerpResult) : Prop := posLEb a b = true

instance : DecidableRel posLE := fun a b => instDecidableEqBool (posLEb a b) true

/-- An entry counts as a domain match when it has a position, a non-empty
link and its extracted domain equals the target or is one of its
subdomains (the containment predicate of the spec). -/
def entryDomainMatch (target_domain : String) (r : SerpResult) : Bool :=
  match r.link, r.position with
  | some link, some _ => !(link == "") && domainMatch target_domain link
  | _, _ => false

/-- An entry counts as a URL match when it has a position, a non-empty link
and its trailing-slash-stripped link equals the normalized target or starts
with the normalized target followed by `"?"` (the spec's matching rule). -/
def urlEntryMatch (target_norm : String) (r : SerpResult) : Bool :=
  match r.link, r.position with
  | some link, some _ =>
    !(link == "") && (rstripSlash link == target_norm ||
      pyStartsWith (rstripSlash link) (target_norm ++ "?"))
  | _, _ => false

/-- Reference form of `findUrlRank` written from the spec's words: normalize
the target by prefixing `"https://"` when it starts with `"www."` and
stripping trailing slashes, then return the position and link of the first
matching entry in scan order. -/
def findUrlRankSpec (results : List SerpResult) (target_url : String) :
    Option Int × Option String :=
  let target_norm :=
    rstripSlash (if pyStartsWith target_url "www." then "https://" ++ target_url else target_url)
  match results.find? (urlEntryMatch target_norm) with
  | some r => (r.position, r.link)
  | none => (none, none)

/-- Sum of the six independent score bonuses of the spec, computed from the
returned metrics: +2 title, +2 h1, +1 description, +1 url, +2 word-count
band, +1 density band. -/
def scoreBonusSum (m : PageMetrics) : Nat :=
  (if m.keyword_in_title then 2 else 0) +
  (if m.keyword_in_h1 then 2 else 0) +
  (if m.keyword_in_description then 1 else 0) +
  (if m.keyword_in_url then 1 else 0) +
  (if 800 ≤ m.word_count ∧ m.word_count ≤ 2500 then 2 else 0) +
  (if (0.005 : ℚ) ≤ m.keyword_density ∧ m.keyword_density ≤ (0.03 : ℚ) then 1 else 0)

/-- Body text of the spec's scenario C page: one thousand words of which
ten occurrences are the phrase `"running shoes"` (counting the title's
three words and its one occurrence, collected by `get_text`). -/
def scenarioCBody : String :=
  ⟨(List.replicate 9 "running shoes ".data).flatten ++
    (List.replicate 978 "x ".data).flatten ++ "x".data⟩

/-- The spec's scenario C page: title "Best Running Shoes" and a body of
997 further words. -/
def scenarioCHtml : String := "<title>Best Running Shoes</title>" ++ scenarioCBody

/-!
General helper lemmas about characters and lists.
-/

/-- Packing a scalar value below the surrogate range and reading it back is
the identity. -/
theorem toNat_ofNat_of_lt {n : Nat} (h : n < 0xd800) : (Char.ofNat n).toNat = n := by
  have hv : n.isValidChar := Or.inl h
  simp [Char.ofNat, hv, Char.ofNatAux, Char.toNat, UInt32.toNat]

/-- Lowercasing a character either fixes it or lands in `[97, 122]`. -/
theorem toLower_cases (c : Char) :
    Char.toLower c = c ∨
      (97 ≤ (Char.toLower c).toNat ∧ (Char.toLower c).toNat ≤ 122) := by
  unfold Char.toLower
  simp only []
  by_cases h : c.toNat ≥ 65 ∧ c.toNat ≤ 90
  · rw [if_pos h]
    right
    rw [toNat_ofNat_of_lt (by omega)]
    omega
  · rw [if_neg h]
    left; rfl

/-- Characters at or above `'a'` are fixed by lowercasing. -/
theorem toLower_eq_self_of_ge (c : Char) (h : 97 ≤ c.toNat) : Char.toLower c = c := by
  unfold Char.toLower
  simp only []
  rw [if_neg (by omega)]

/-- Lowercasing is idempotent. -/
theorem toLower_idem (c : Char) : Char.toLower (Char.toLower c) = Char.toLower c := by
  rcases toLower_cases c with h | ⟨h1, _⟩
  · rw [h]; exact h
  · exact toLower_eq_self_of_ge _ h1

/-- Lowercasing preserves being above the control/space range. -/
theorem toLower_gt32 {c : Char} (h : 32 < c.toNat) : 32 < (Char.toLower c).toNat := by
  rcases toLower_cases c with he | ⟨h1, _⟩
  · rw [he]; exact h
  · omega

/-- Lowercasing cannot produce a character below `'a'` that was avoided. -/
theorem toLower_ne {c x : Char} (hx : x.toNat < 97) (h : c ≠ x) : Char.toLower c ≠ x := by
  rcases toLower_cases c with he | ⟨h1, _⟩
  · rw [he]; exact h
  · intro hc
    have := congrArg Char.toNat hc
    omega

/-- Python whitespace characters all lie at or below the space character. -/
theorem pyIsSpace_le32 {c : Char} (h : pyIsSpace c = true) : c.toNat ≤ 32 := by
  simp only [pyIsSpace, Bool.or_eq_true, beq_iff_eq] at h
  rcases h with ((((rfl | rfl) | rfl) | rfl) | rfl) | rfl <;> decide

/-- Dropping by a predicate that holds nowhere is the identity. -/
theorem dropWhile_eq_self {p : Char → Bool} {l : List Char}
    (h : ∀ c ∈ l, p c = false) : l.dropWhile p = l := by
  cases l with
  | nil => rfl
  | cons a t =>
    rw [List.dropWhile_cons, h a (List.mem_cons_self a t)]
    simp

/-- Stripping a string with no whitespace anywhere is the identity. -/
theorem pyStripL_eq_self {l : List Char} (h : ∀ c ∈ l, pyIsSpace c = false) :
    pyStripL l = l := by
  unfold pyStripL
  rw [dropWhile_eq_self h]
  rw [dropWhile_eq_self (fun c hc => h c (List.mem_reverse.mp hc))]
  exact List.reverse_reverse l

/-- Taking by a predicate that holds everywhere is the identity. -/
theorem takeWhile_eq_self {p : Char → Bool} {l : List Char}
    (h : ∀ c ∈ l, p c = true) : l.takeWhile p = l := by
  induction l with
  | nil => rfl
  | cons a t ih =>
    have ha := h a (List.mem_cons_self a t)
    have ht := ih (fun c hc => h c (List.mem_cons_of_mem _ hc))
    simp [List.takeWhile_cons, ha, ht]

/-- Filtering by a predicate that holds everywhere is the identity. -/
theorem filter_eq_self_of {p : Char → Bool} {l : List Char}
    (h : ∀ c ∈ l, p c = true) : l.filter p = l :=
  List.filter_eq_self.mpr h

/-- Every character of a Boolean prefix is a character of the list. -/
theorem mem_of_isPre : ∀ {l₁ l₂ : List Char}, l₁.isPrefixOf l₂ = true → ∀ c ∈ l₁, c ∈ l₂ := by
  intro l₁
  induction l₁ with
  | nil => intro l₂ _ c hc; exact absurd hc (List.not_mem_nil c)
  | cons a t ih =>
    intro l₂ hpre c hc
    cases l₂ with
    | nil => simp [List.isPrefixOf] at hpre
    | cons b t₂ =>
      simp only [List.isPrefixOf, Bool.and_eq_true, beq_iff_eq] at hpre
      rcases List.mem_cons.mp hc with rfl | hc'
      · rw [hpre.1]; exact List.mem_cons_self b t₂
      · exact List.mem_cons_of_mem _ (ih hpre.2 c hc')

/-- A list is a Boolean prefix of itself followed by anything. -/
theorem isPre_append_self : ∀ (l t : List Char), l.isPrefixOf (l ++ t) = true := by
  intro l t
  induction l with
  | nil => simp
  | cons a l' ih => simp [List.isPrefixOf, ih]

/-- Containment test of an absent character is false. -/
theorem contains_eq_false {l : List Char} {a : Char} (h : a ∉ l) : l.contains a = false := by
  simpa using h

/-- The empty needle is a substring of everything (Python semantics). -/
theorem pySub_nil (l : List Char) : pySub [] l = true := by
  cases l <;> simp [pySub, List.isEmpty, List.isPrefixOf]

/-- Reading two present positions out of the ordering invariant. -/
theorem posLE_le {r r' : SerpResult} (h : posLE r r') {p q : Int}
    (hp : r.position = some p) (hq : r'.position = some q) : p ≤ q := by
  simp only [posLE, posLEb, hp, hq] at h
  exact of_decide_eq_true h

/-!
Lemmas about the three rank lookups.
-/

/-- The loop of `find_url_rank` returns the position and link of the first
entry accepted by the spec's URL-matching predicate. -/
theorem find_url_rank_go_spec (tn : String) (R : List SerpResult) :
    find_url_rank_go tn R = match R.find? (urlEntryMatch tn) with
      | some r => (r.position, r.link)
      | none => (none, none) := by
  induction R with
  | nil => rfl
  | cons r rest ih =>
    rw [List.find?_cons]
    cases hl : r.link with
    | none =>
      have hm : urlEntryMatch tn r = false := by simp [urlEntryMatch, hl]
      simp only [find_url_rank_go, hl, hm, ih]
    | some link =>
      cases hp : r.position with
      | none =>
        have hm : urlEntryMatch tn r = false := by simp [urlEntryMatch, hl, hp]
        simp only [find_url_rank_go, hl, hp, hm, ih]
      | some pos =>
        by_cases he : link = ""
        · have hm : urlEntryMatch tn r = false := by simp [urlEntryMatch, hl, hp, he]
          simp only [find_url_rank_go, hl, hp, he, if_pos rfl, hm, ih, if_true]
        · by_cases hmt : urlMatch tn link = true
          · have hm : urlEntryMatch tn r = true := by
              simp only [urlEntryMatch, hl, hp]
              simp only [urlMatch] at hmt
              simp [he, hmt]
            simp only [find_url_rank_go, hl, hp, if_neg he, hmt, if_pos rfl, hm, hl, hp,
              eq_self_iff_true, if_true]
          · have hm : urlEntryMatch tn r = false := by
              simp only [urlEntryMatch, hl, hp]
              simp only [urlMatch] at hmt
              simp [he, hmt]
            rw [hm]
            simp only [find_url_rank_go, hl, hp, if_neg he]
            rw [if_neg (by simpa using hmt)]
            exact ih

/-- On a trimmed non-empty target, `find_url_rank` agrees with the
reference function written from the spec. -/
theorem find_url_rank_eq_spec (results : List SerpResult) (target : String)
    (hst : pyStrip target = target) (hne : target ≠ "") :
    find_url_rank results target = findUrlRankSpec results target := by
  unfold find_url_rank findUrlRankSpec
  rw [hst, if_neg hne, find_url_rank_go_spec]

/-- The loop of `find_domain_rank` on a position-sorted list returns a
matching entry's position and link, minimal among all matching entries. -/
theorem find_domain_rank_go_min (t : String) :
    ∀ R : List SerpResult, R.Pairwise posLE →
      ∀ rank url, find_domain_rank_go t R = (some rank, some url) →
        ((∃ r ∈ R, r.position = some rank ∧ r.link = some url ∧ entryDomainMatch t r = true) ∧
          ∀ r ∈ R, entryDomainMatch t r = true → ∀ p, r.position = some p → rank ≤ p) := by
  intro R
  induction R with
  | nil => intro _ rank url h; simp [find_domain_rank_go] at h
  | cons r rest ih =>
    intro hpw rank url h
    rw [List.pairwise_cons] at hpw
    obtain ⟨hr, hrest⟩ := hpw
    by_cases hv : entryDomainMatch t r = true
    · obtain ⟨link, pos, hl, hp, he, hmt⟩ :
          ∃ link pos, r.link = some link ∧ r.position = some pos ∧ link ≠ "" ∧
            domainMatch t link = true := by
        revert hv
        unfold entryDomainMatch
        cases hl : r.link with
        | none => simp
        | some link =>
          cases hp : r.position with
          | none => simp
          | some pos =>
            intro hv
            simp only [Bool.and_eq_true, bne_iff_ne, ne_eq, beq_iff_eq] at hv
            exact ⟨link, pos, rfl, rfl, by simpa using hv.1, hv.2⟩
      simp only [find_domain_rank_go, hl, hp, if_neg he, hmt, if_true, if_pos rfl] at h
      obtain ⟨h1, h2⟩ := Prod.mk.injEq .. ▸ h
      obtain rfl : pos = rank := by simpa using congrArg (Option.getD · 0) h1
      obtain rfl : link = url := by
        have := congrArg (Option.getD · "") h2
        simpa using this
      refine ⟨⟨r, List.mem_cons_self r rest, hp, hl, hv⟩, ?_⟩
      intro r'' hmem hm'' p hp'
      rcases List.mem_cons.mp hmem with rfl | hmem'
      · rw [hp] at hp'; exact le_of_eq (Option.some.inj hp')
      · exact posLE_le (hr r'' hmem') hp hp'
    · have hskip : find_domain_rank_go t (r :: rest) = find_domain_rank_go t rest := by
        unfold entryDomainMatch at hv
        cases hl : r.link with
        | none => simp [find_domain_rank_go, hl]
        | some link =>
          cases hp : r.position with
          | none => simp [find_domain_rank_go, hl, hp]
          | some pos =>
            rw [hl, hp] at hv
            simp only [Bool.and_eq_true, bne_iff_ne, ne_eq, beq_iff_eq, not_and] at hv
            by_cases he : link = ""
            · simp [find_domain_rank_go, hl, hp, he]
            · have : ¬ domainMatch t link = true := by
                intro hc
                exact hv (by simpa using he) hc
              simp [find_domain_rank_go, hl, hp, he, this]
      rw [hskip] at h
      obtain ⟨⟨r', hr', hconc⟩, hmin⟩ := ih hrest rank url h
      refine ⟨⟨r', List.mem_cons_of_mem _ hr', hconc⟩, ?_⟩
      intro r'' hmem hm'' p hp'
      rcases List.mem_cons.mp hmem with rfl | hmem'
      · exact absurd hm'' hv
      · exact hmin r'' hmem' hm'' p hp'

/-- All three lookup loops skip an entry with an absent or empty link or an
absent position. -/
theorem go_skip_invalid (t : String) (r : SerpResult) (rest : List SerpResult)
    (h : r.link = none ∨ r.link = some "" ∨ r.position = none) :
    find_domain_rank_go t (r :: rest) = find_domain_rank_go t rest ∧
    find_all_domain_positions_go t (r :: rest) = find_all_domain_positions_go t rest ∧
    find_url_rank_go t (r :: rest) = find_url_rank_go t rest := by
  rcases h with hl | hl | hp
  · refine ⟨?_, ?_, ?_⟩ <;>
      simp [find_domain_rank_go, find_all_domain_positions_go, find_url_rank_go, hl]
  · cases hp : r.position with
    | none => refine ⟨?_, ?_, ?_⟩ <;>
        simp [find_domain_rank_go, find_all_domain_positions_go, find_url_rank_go, hl, hp]
    | some pos => refine ⟨?_, ?_, ?_⟩ <;>
        simp [find_domain_rank_go, find_all_domain_positions_go, find_url_rank_go, hl, hp]
  · cases hl : r.link with
    | none => refine ⟨?_, ?_, ?_⟩ <;>
        simp [find_domain_rank_go, find_all_domain_positions_go, find_url_rank_go, hl, hp]
    | some link => refine ⟨?_, ?_, ?_⟩ <;>
        simp [find_domain_rank_go, find_all_domain_positions_go, find_url_rank_go, hl, hp]

/-- When no entry matches the domain predicate, both domain loops come back
empty-handed. -/
theorem go_all_none (t : String) :
    ∀ R : List SerpResult, (∀ r ∈ R, entryDomainMatch t r = false) →
      find_domain_rank_go t R = (none, none) ∧ find_all_domain_positions_go t R = [] := by
  intro R
  induction R with
  | nil => intro _; exact ⟨rfl, rfl⟩
  | cons r rest ih =>
    intro hall
    have hv := hall r (List.mem_cons_self r rest)
    have htail := ih fun r' hr' => hall r' (List.mem_cons_of_mem _ hr')
    unfold entryDomainMatch at hv
    cases hl : r.link with
    | none => simpa [find_domain_rank_go, find_all_domain_positions_go, hl] using htail
    | some link =>
      cases hp : r.position with
      | none => simpa [find_domain_rank_go, find_all_domain_positions_go, hl, hp] using htail
      | some pos =>
        rw [hl, hp] at hv
        simp only [Bool.and_eq_false_iff] at hv
        by_cases he : link = ""
        · simpa [find_domain_rank_go, find_all_domain_positions_go, hl, hp, he] using htail
        · have hnm : domainMatch t link = false := by
            rcases hv with hv | hv
            · exact absurd (by simpa using hv) he
            · exact hv
          simpa [find_domain_rank_go, find_all_domain_positions_go, hl, hp, he, hnm] using htail

/-- `find_domain_rank` reports exactly the head of the unsorted hit list of
`find_all_domain_positions`. -/
theorem go_fdr_head (t : String) :
    ∀ R : List SerpResult,
      find_domain_rank_go t R = match find_all_domain_positions_go t R with
        | [] => (none, none)
        | h :: _ => (some h.position, some h.url) := by
  intro R
  induction R with
  | nil => rfl
  | cons r rest ih =>
    cases hl : r.link with
    | none => simp only [find_domain_rank_go, find_all_domain_positions_go, hl, ih]
    | some link =>
      cases hp : r.position with
      | none => simp only [find_domain_rank_go, find_all_domain_positions_go, hl, hp, ih]
      | some pos =>
        by_cases he : link = ""
        · simp only [find_domain_rank_go, find_all_domain_positions_go, hl, hp, if_pos he, ih]
        · by_cases hmt : domainMatch t link = true
          · simp only [find_domain_rank_go, find_all_domain_positions_go, hl, hp, if_neg he,
              hmt, if_pos rfl, if_true]
          · simp only [find_domain_rank_go, find_all_domain_positions_go, hl, hp, if_neg he,
              if_neg hmt, ih]

/-- Every collected hit carries the position of some entry of the input. -/
theorem go_all_mem (t : String) :
    ∀ R : List SerpResult, ∀ h ∈ find_all_domain_positions_go t R,
      ∃ r ∈ R, r.position = some h.position := by
  intro R
  induction R with
  | nil => intro h hh; simp [find_all_domain_positions_go] at hh
  | cons r rest ih =>
    intro h hh
    cases hl : r.link with
    | none =>
      simp only [find_all_domain_positions_go, hl] at hh
      obtain ⟨r', hr', hp'⟩ := ih h hh
      exact ⟨r', List.mem_cons_of_mem _ hr', hp'⟩
    | some link =>
      cases hp : r.position with
      | none =>
        simp only [find_all_domain_positions_go, hl, hp] at hh
        obtain ⟨r', hr', hp'⟩ := ih h hh
        exact ⟨r', List.mem_cons_of_mem _ hr', hp'⟩
      | some pos =>
        simp only [find_all_domain_positions_go, hl, hp] at hh
        by_cases he : link = ""
        · rw [if_pos he] at hh
          obtain ⟨r', hr', hp'⟩ := ih h hh
          exact ⟨r', List.mem_cons_of_mem _ hr', hp'⟩
        · rw [if_neg he] at hh
          by_cases hmt : domainMatch t link = true
          · rw [if_pos hmt] at hh
            rcases List.mem_cons.mp hh with rfl | hh'
            · exact ⟨r, List.mem_cons_self r rest, hp⟩
            · obtain ⟨r', hr', hp'⟩ := ih h hh'
              exact ⟨r', List.mem_cons_of_mem _ hr', hp'⟩
          · rw [if_neg hmt] at hh
            obtain ⟨r', hr', hp'⟩ := ih h hh
            exact ⟨r', List.mem_cons_of_mem _ hr', hp'⟩

/-- On a position-sorted input the collected hit list is already sorted. -/
theorem go_all_pairwise (t : String) :
    ∀ R : List SerpResult, R.Pairwise posLE →
      List.Pairwise hitLE (find_all_domain_positions_go t R) := by
  intro R
  induction R with
  | nil => intro _; exact List.Pairwise.nil
  | cons r rest ih =>
    intro hpw
    rw [List.pairwise_cons] at hpw
    obtain ⟨hr, hrest⟩ := hpw
    cases hl : r.link with
    | none => simp only [find_all_domain_positions_go, hl]; exact ih hrest
    | some link =>
      cases hp : r.position with
      | none => simp only [find_all_domain_positions_go, hl, hp]; exact ih hrest
      | some pos =>
        simp only [find_all_domain_positions_go, hl, hp]
        by_cases he : link = ""
        · rw [if_pos he]; exact ih hrest
        · rw [if_neg he]
          by_cases hmt : domainMatch t link = true
          · rw [if_pos hmt]
            refine List.Pairwise.cons ?_ (ih hrest)
            intro h' hh'
            obtain ⟨r', hr', hp'⟩ := go_all_mem t rest h' hh'
            exact posLE_le (hr r' hr') hp hp'
          · rw [if_neg hmt]; exact ih hrest

/-!
Lemmas about the page analyzer.
-/

/-- The density field of the analyzer core, exposed as the guarded quotient
of the substring count by the word count. -/
theorem core_density_spec (p : ParsedPage) (url kw : String) :
    (analyze_page_core p url kw).keyword_density =
      if 0 < (pyWords (collapseWs p.text.data)).length
      then (pyCount kw.data (pyLower ⟨collapseWs p.text.data⟩).data : ℚ) /
           ((pyWords (collapseWs p.text.data)).length : ℚ)
      else 0 := rfl

/-- The density produced by the analyzer core is never negative. -/
theorem core_density_nonneg (p : ParsedPage) (url kw : String) :
    0 ≤ (analyze_page_core p url kw).keyword_density := by
  simp only [analyze_page_core]
  split
  · positivity
  · exact le_refl 0

/-- The score of the analyzer core is exactly the sum of the six bonuses
read back from its own output fields. -/
theorem core_score_spec (p : ParsedPage) (url kw : String) :
    (analyze_page_core p url kw).score = scoreBonusSum (analyze_page_core p url kw) := rfl

/-- The bonus sum never exceeds nine. -/
theorem scoreBonusSum_le_nine (m : PageMetrics) : scoreBonusSum m ≤ 9 := by
  unfold scoreBonusSum
  split_ifs <;> norm_num

/-- The zeroed record earns no bonus. -/
theorem zero_score_spec (url : String) : scoreBonusSum (zeroMetrics url) = 0 := by
  simp [scoreBonusSum, zeroMetrics]
  norm_num

/-- A bonus granted under a weaker condition is dominated by the same bonus
granted under a stronger one. -/
theorem ite_le_ite_of_imp {a b : Prop} [Decidable a] [Decidable b] (k : Nat) (h : a → b) :
    (if a then k else 0) ≤ (if b then k else 0) := by
  by_cases ha : a
  · rw [if_pos ha, if_pos (h ha)]
  · simp [ha]

/-- The bonus sum is monotone in the six scoring conditions. -/
theorem scoreBonusSum_mono (m₁ m₂ : PageMetrics)
    (ht : m₁.keyword_in_title = true → m₂.keyword_in_title = true)
    (hh : m₁.keyword_in_h1 = true → m₂.keyword_in_h1 = true)
    (hd : m₁.keyword_in_description = true → m₂.keyword_in_description = true)
    (hu : m₁.keyword_in_url = true → m₂.keyword_in_url = true)
    (hw : 800 ≤ m₁.word_count ∧ m₁.word_count ≤ 2500 →
          800 ≤ m₂.word_count ∧ m₂.word_count ≤ 2500)
    (hk : (0.005 : ℚ) ≤ m₁.keyword_density ∧ m₁.keyword_density ≤ (0.03 : ℚ) →
          (0.005 : ℚ) ≤ m₂.keyword_density ∧ m₂.keyword_density ≤ (0.03 : ℚ)) :
    scoreBonusSum m₁ ≤ scoreBonusSum m₂ := by
  unfold scoreBonusSum
  exact Nat.add_le_add (Nat.add_le_add (Nat.add_le_add (Nat.add_le_add
    (Nat.add_le_add (ite_le_ite_of_imp 2 ht) (ite_le_ite_of_imp 2 hh))
    (ite_le_ite_of_imp 1 hd)) (ite_le_ite_of_imp 1 hu))
    (ite_le_ite_of_imp 2 hw)) (ite_le_ite_of_imp 1 hk)

/-- For every input, absent or present, the returned score is the sum of
the six bonuses read back from the returned metrics. -/
theorem analyze_score_spec (html : Option String) (url keyword : String) :
    (analyze_page html url keyword).score = scoreBonusSum (analyze_page html url keyword) := by
  match html with
  | none => rw [show analyze_page none url keyword = zeroMetrics url from rfl, zero_score_spec]; rfl
  | some h =>
    by_cases hh : h = ""
    · simp only [analyze_page, if_pos hh]
      rw [zero_score_spec]; rfl
    · simp only [analyze_page, if_neg hh]
      exact core_score_spec _ _ _

/-- Length checker traversing the list spine with a literal countdown. -/
def hasLen {a : Type} : List a → Nat → Bool
  | [], 0 => true
  | [], _ + 1 => false
  | _ :: _, 0 => false
  | _ :: t, n + 1 => hasLen t n

/-- The length checker decides the length. -/
theorem hasLen_iff {a : Type} : ∀ (l : List a) (n : Nat), hasLen l n = true ↔ l.length = n := by
  intro l
  induction l with
  | nil => intro n; cases n <;> simp [hasLen]
  | cons x t ih => intro n; cases n <;> simp [hasLen, ih]

/-- The word-count field of the analyzer core, exposed. -/
theorem core_wc_spec (p : ParsedPage) (url kw : String) :
    (analyze_page_core p url kw).word_count = (pyWords (collapseWs p.text.data)).length := rfl

/-- Unfolding `analyze_page` on the (non-empty) scenario C page. -/
theorem scenC_unfold : analyze_page (some scenarioCHtml) "https://ex.am/p" "running shoes" =
    analyze_page_core (parseHtml scenarioCHtml) "https://ex.am/p" (pyLower "running shoes") := by
  have hne : scenarioCHtml ≠ "" := by decide
  simp only [analyze_page, if_neg hne]

set_option maxRecDepth 200000 in
/-- The scenario C page carries the expected title. -/
theorem scenC_title :
    (analyze_page (some scenarioCHtml) "https://ex.am/p" "running shoes").title =
      "Best Running Shoes" := by decide

set_option maxRecDepth 200000 in
/-- The scenario C page has one thousand body words. -/
theorem scenC_wc :
    (analyze_page (some scenarioCHtml) "https://ex.am/p" "running shoes").word_count = 1000 := by
  rw [scenC_unfold, core_wc_spec]
  exact (hasLen_iff _ 1000).mp (by decide)

set_option maxRecDepth 200000 in
/-- The scenario C keyword occurs ten times in the collapsed body text. -/
theorem scenC_count :
    pyCount (pyLower "running shoes").data
      (pyLower ⟨collapseWs (parseHtml scenarioCHtml).text.data⟩).data = 10 := by decide

set_option maxRecDepth 200000 in
/-- The keyword sits in the scenario C title. -/
theorem scenC_flag_title :
    (analyze_page (some scenarioCHtml) "https://ex.am/p" "running shoes").keyword_in_title
      = true := by decide

set_option maxRecDepth 200000 in
/-- The keyword is absent from the scenario C h1. -/
theorem scenC_flag_h1 :
    (analyze_page (some scenarioCHtml) "https://ex.am/p" "running shoes").keyword_in_h1
      = false := by decide

set_option maxRecDepth 200000 in
/-- The keyword is absent from the scenario C meta description. -/
theorem scenC_flag_desc :
    (analyze_page (some scenarioCHtml) "https://ex.am/p" "running shoes").keyword_in_description
      = false := by decide

set_option maxRecDepth 200000 in
/-- The keyword is absent from the scenario C URL. -/
theorem scenC_flag_url :
    (analyze_page (some scenarioCHtml) "https://ex.am/p" "running shoes").keyword_in_url
      = false := by decide

set_option maxRecDepth 200000 in
/-- The scenario C page has keyword density one percent. -/
theorem scenC_density :
    (analyze_page (some scenarioCHtml) "https://ex.am/p" "running shoes").keyword_density
      = 1 / 100 := by
  rw [scenC_unfold, core_density_spec]
  have hwc : (pyWords (collapseWs (parseHtml scenarioCHtml).text.data)).length = 1000 := by
    exact (hasLen_iff _ 1000).mp (by decide)
  rw [hwc, scenC_count]
  norm_num

/-- The scenario C page scores five: two for the title, two for the
word-count band, one for the density band. -/
theorem scenC_score :
    (analyze_page (some scenarioCHtml) "https://ex.am/p" "running shoes").score = 5 := by
  rw [analyze_score_spec]
  unfold scoreBonusSum
  rw [scenC_flag_title, scenC_flag_h1, scenC_flag_desc, scenC_flag_url, scenC_wc, scenC_density]
  norm_num

/-!
Lemmas about domain normalisation of `www.`-variant inputs.
-/

/-- A bare domain with no separator characters, no control/space characters
and no lowercased `"www."` head normalises to its lowercase form. -/
theorem normalizeL_nohttp (d : List Char)
    (hvis : ∀ c ∈ d, 32 < c.toNat)
    (hseg : ∀ c ∈ d, c ≠ '/' ∧ c ≠ '?' ∧ c ≠ '#')
    (hww : "www.".data.isPrefixOf (d.map Char.toLower) = false) :
    normalizeTargetDomainL d = d.map Char.toLower := by
  have hnosp : ∀ c ∈ d, pyIsSpace c = false := by
    intro c hc
    cases hps : pyIsSpace c
    · rfl
    · exact absurd (pyIsSpace_le32 hps) (by have := hvis c hc; omega)
  have hslash : '/' ∉ d.map Char.toLower := by
    intro hc
    obtain ⟨c₀, hc₀, he⟩ := List.mem_map.mp hc
    exact toLower_ne (by decide) (hseg c₀ hc₀).1 he
  have hpre1 : "http://".data.isPrefixOf (d.map Char.toLower) = false := by
    cases hp : "http://".data.isPrefixOf (d.map Char.toLower)
    · rfl
    · exact absurd (mem_of_isPre hp '/' (by decide)) hslash
  have hpre2 : "https://".data.isPrefixOf (d.map Char.toLower) = false := by
    cases hp : "https://".data.isPrefixOf (d.map Char.toLower)
    · rfl
    · exact absurd (mem_of_isPre hp '/' (by decide)) hslash
  unfold normalizeTargetDomainL
  rw [pyStripL_eq_self hnosp]
  dsimp only
  rw [hpre1, hpre2]
  simp only [Bool.or_self, Bool.false_eq_true, if_false]
  rw [contains_eq_false hslash]
  simp only [Bool.false_eq_true, if_false]
  rw [hww]
  simp only [Bool.false_eq_true, if_false]

/-- Lowercasing distributes over a `"www."` head. -/
theorem map_toLower_www (d : List Char) :
    ("www.".data ++ d).map Char.toLower = "www.".data ++ d.map Char.toLower := by
  rw [List.map_append]
  rfl

/-- Prefixing `"www."` to such a bare domain normalises to the same
lowercase form: the prefix is stripped again. -/
theorem normalizeL_www_mid (d : List Char)
    (hvis : ∀ c ∈ d, 32 < c.toNat)
    (hseg : ∀ c ∈ d, c ≠ '/' ∧ c ≠ '?' ∧ c ≠ '#') :
    normalizeTargetDomainL ("www.".data ++ d) = d.map Char.toLower := by
  have hnosp : ∀ c ∈ "www.".data ++ d, pyIsSpace c = false := by
    intro c hc
    rcases List.mem_append.mp hc with hc | hc
    · exact (by decide : ∀ c ∈ "www.".data, pyIsSpace c = false) c hc
    · cases hps : pyIsSpace c
      · rfl
      · exact absurd (pyIsSpace_le32 hps) (by have := hvis c hc; omega)
  have hslash : '/' ∉ "www.".data ++ d.map Char.toLower := by
    intro hc
    rcases List.mem_append.mp hc with hc | hc
    · exact (by decide : '/' ∉ "www.".data) hc
    · obtain ⟨c₀, hc₀, he⟩ := List.mem_map.mp hc
      exact toLower_ne (by decide) (hseg c₀ hc₀).1 he
  unfold normalizeTargetDomainL
  rw [pyStripL_eq_self hnosp, map_toLower_www]
  dsimp only
  have hpre1 : "http://".data.isPrefixOf ("www.".data ++ d.map Char.toLower) = false := rfl
  have hpre2 : "https://".data.isPrefixOf ("www.".data ++ d.map Char.toLower) = false := rfl
  rw [hpre1, hpre2]
  simp only [Bool.or_self, Bool.false_eq_true, if_false]
  rw [contains_eq_false hslash]
  simp only [Bool.false_eq_true, if_false]
  rw [isPre_append_self]
  simp only [if_true]
  exact List.drop_left "www.".data _

/-- The network location of `"https://www." ++ l` for a clean `l` is
`"www." ++ l`. -/
theorem netloc_https (l : List Char)
    (hfl : l.filter (fun c => !(c == '\t' || c == '\r' || c == '\n')) = l)
    (htw : l.takeWhile (fun c => !(c == '/' || c == '?' || c == '#')) = l) :
    urlparseNetloc ("https://www.".data ++ l) = "www.".data ++ l := by
  have h0 : urlparseNetloc ("https://www.".data ++ l) =
      "www.".data ++ ((l.filter (fun c => !(c == '\t' || c == '\r' || c == '\n'))).takeWhile
        (fun c => !(c == '/' || c == '?' || c == '#'))) := rfl
  rw [h0, hfl, htw]

/-- Extracting the domain of `"https://www." ++ l` strips scheme and
`"www."` for a clean lowercase `l`. -/
theorem extract_https (l : List Char)
    (hfl : l.filter (fun c => !(c == '\t' || c == '\r' || c == '\n')) = l)
    (htw : l.takeWhile (fun c => !(c == '/' || c == '?' || c == '#')) = l)
    (hmapl : l.map Char.toLower = l) :
    extractDomainL ("https://www.".data ++ l) = l := by
  unfold extractDomainL
  dsimp only
  rw [netloc_https l hfl htw, List.map_append, hmapl,
    show "www.".data.map Char.toLower = "www.".data from rfl, isPre_append_self]
  simp only [if_true]
  exact List.drop_left "www.".data _

/-- Prefixing `"https://www."` to such a bare domain also normalises to the
same lowercase form. -/
theorem normalizeL_https (d : List Char)
    (hvis : ∀ c ∈ d, 32 < c.toNat)
    (hseg : ∀ c ∈ d, c ≠ '/' ∧ c ≠ '?' ∧ c ≠ '#') :
    normalizeTargetDomainL ("https://www.".data ++ d) = d.map Char.toLower := by
  have hnosp : ∀ c ∈ "https://www.".data ++ d, pyIsSpace c = false := by
    intro c hc
    rcases List.mem_append.mp hc with hc | hc
    · exact (by decide : ∀ c ∈ "https://www.".data, pyIsSpace c = false) c hc
    · cases hps : pyIsSpace c
      · rfl
      · exact absurd (pyIsSpace_le32 hps) (by have := hvis c hc; omega)
  have hmap : ("https://www.".data ++ d).map Char.toLower =
      "https://www.".data ++ d.map Char.toLower := by
    rw [List.map_append]
    rfl
  have hvis' : ∀ c ∈ d.map Char.toLower, 32 < c.toNat := by
    intro c hc
    obtain ⟨c₀, hc₀, rfl⟩ := List.mem_map.mp hc
    exact toLower_gt32 (hvis c₀ hc₀)
  have hseg' : ∀ c ∈ d.map Char.toLower, c ≠ '/' ∧ c ≠ '?' ∧ c ≠ '#' := by
    intro c hc
    obtain ⟨c₀, hc₀, rfl⟩ := List.mem_map.mp hc
    obtain ⟨h1, h2, h3⟩ := hseg c₀ hc₀
    exact ⟨toLower_ne (by decide) h1, toLower_ne (by decide) h2, toLower_ne (by decide) h3⟩
  have hfl : (d.map Char.toLower).filter (fun c => !(c == '\t' || c == '\r' || c == '\n')) =
      d.map Char.toLower := by
    apply filter_eq_self_of
    intro c hc
    have h32 := hvis' c hc
    simp only [Bool.not_eq_true', Bool.or_eq_false_iff, beq_eq_false_iff_ne, ne_eq]
    refine ⟨⟨?_, ?_⟩, ?_⟩ <;> rintro rfl <;> simp at h32
  have htw : (d.map Char.toLower).takeWhile (fun c => !(c == '/' || c == '?' || c == '#')) =
      d.map Char.toLower := by
    apply takeWhile_eq_self
    intro c hc
    obtain ⟨h1, h2, h3⟩ := hseg' c hc
    simp [h1, h2, h3]
  have hmapl : (d.map Char.toLower).map Char.toLower = d.map Char.toLower := by
    rw [List.map_map]
    exact List.map_congr_left (fun c _ => toLower_idem c)
  unfold normalizeTargetDomainL
  rw [pyStripL_eq_self hnosp, hmap]
  dsimp only
  rw [show "https://".data.isPrefixOf ("https://www.".data ++ d.map Char.toLower) = true from rfl]
  simp only [Bool.or_true, if_true]
  exact extract_https _ hfl htw hmapl

/-!
The claims.
-/

/-- Claim C1 (corrected).  For every whitespace-trimmed, non-empty raw
target URL, `find_url_rank` normalises the target by prefixing `"https://"`
when it starts with `"www."` (keeping the `"www."`) and stripping trailing
slashes, and returns the first entry in scan order, among those with a
present position and a non-empty link, whose trailing-slash-stripped link
equals the normalised target or starts with it followed by `"?"`.  For
target `"www.example.com"` the normalised target is
`"https://www.example.com"`, so the scenario B entry
`{position 5, link "https://example.com/?utm=1"}` does not match and the
rank is absent; a link such as `"https://www.example.com?utm=1"` matches
via the `startswith` rule and yields rank 5. -/
theorem find_url_rank_first_match :
    (∀ (results : List SerpResult) (target : String),
      pyStrip target = target → target ≠ "" →
      find_url_rank results target = findUrlRankSpec results target) ∧
    find_url_rank [⟨some "https://example.com/?utm=1", some 5⟩] "www.example.com" =
      (none, none) ∧
    find_url_rank [⟨some "https://www.example.com?utm=1", some 5⟩] "www.example.com" =
      (some 5, some "https://www.example.com?utm=1") :=
  ⟨find_url_rank_eq_spec, by decide, by decide⟩

/-- Claim C1 counterexample.  On the spec's scenario B input the code
returns no rank at all: the normalisation keeps the `"www."`, so the claimed
match yielding rank 5 fails. -/
theorem find_url_rank_scenarioB_counterexample :
    find_url_rank [⟨some "https://example.com/?utm=1", some 5⟩] "www.example.com" =
        (none, none) ∧
      (find_url_rank [⟨some "https://example.com/?utm=1", some 5⟩] "www.example.com").1 ≠
        some 5 :=
  ⟨by decide, by decide⟩

/-- Claim C1 witness: the refinement applied to a concrete trimmed
non-empty target. -/
theorem find_url_rank_first_match_witness :
    pyStrip "www.example.com" = "www.example.com" ∧
    find_url_rank [⟨some "https://www.example.com?utm=1", some 5⟩] "www.example.com" =
      findUrlRankSpec [⟨some "https://www.example.com?utm=1", some 5⟩] "www.example.com" :=
  ⟨by decide, find_url_rank_first_match.1 _ "www.example.com" (by decide) (by decide)⟩

/-- Claim C2 (confirmed).  On a SERP list sorted ascending by position (the
spec's data-model invariant), whenever `find_domain_rank` returns a pair
`(rank, url)`, some entry carries exactly that position and link and
matches the domain-containment predicate, and every matching entry has
position at least `rank` — so `rank` is the minimum matching position and
no entry with a smaller position matches.  Scenario A returns
`(2, "https://blog.example.com/x")`. -/
theorem find_domain_rank_minimal :
    (∀ (results : List SerpResult) (target : String) (rank : Int) (url : String),
      results.Pairwise posLE →
      find_domain_rank results target = (some rank, some url) →
      ((∃ r ∈ results, r.position = some rank ∧ r.link = some url ∧
          entryDomainMatch (normalize_target_domain target) r = true) ∧
        ∀ r ∈ results, entryDomainMatch (normalize_target_domain target) r = true →
          ∀ p, r.position = some p → rank ≤ p)) ∧
    find_domain_rank
      [⟨some "https://a.com/", some 1⟩, ⟨some "https://blog.example.com/x", some 2⟩]
      "example.com" = (some 2, some "https://blog.example.com/x") := by
  constructor
  · intro results target rank url hpw h
    exact find_domain_rank_go_min (normalize_target_domain target) results hpw rank url h
  · decide

/-- Claim C2 witness: the minimality property instantiated on scenario A. -/
theorem find_domain_rank_minimal_witness :
    (∃ r ∈ ([⟨some "https://a.com/", some 1⟩,
            ⟨some "https://blog.example.com/x", some 2⟩] : List SerpResult),
        r.position = some 2 ∧ r.link = some "https://blog.example.com/x" ∧
        entryDomainMatch (normalize_target_domain "example.com") r = true) ∧
      ∀ r ∈ ([⟨some "https://a.com/", some 1⟩,
            ⟨some "https://blog.example.com/x", some 2⟩] : List SerpResult),
        entryDomainMatch (normalize_target_domain "example.com") r = true →
          ∀ p, r.position = some p → 2 ≤ p :=
  find_domain_rank_minimal.1 _ "example.com" 2 "https://blog.example.com/x"
    (by decide) (by decide)

/-- Claim C3 (corrected).  The keyword density returned by `analyze_page`
is a non-negative rational equal, on present non-empty HTML, to the
case-insensitive substring count of the keyword in the whitespace-collapsed
body text divided by `word_count` when `word_count` is positive (and `0`
otherwise); it is however not bounded by 1. -/
theorem keyword_density_nonneg_formula :
    (∀ (html : Option String) (url keyword : String),
      0 ≤ (analyze_page html url keyword).keyword_density) ∧
    (∀ (h url keyword : String), h ≠ "" →
      (analyze_page (some h) url keyword).keyword_density =
        if 0 < (analyze_page (some h) url keyword).word_count
        then (pyCount (pyLower keyword).data
              (pyLower ⟨collapseWs (parseHtml h).text.data⟩).data : ℚ) /
             ((analyze_page (some h) url keyword).word_count : ℚ)
        else 0) := by
  constructor
  · intro html url keyword
    match html with
    | none => simp [analyze_page, zeroMetrics]
    | some h =>
      by_cases hh : h = ""
      · simp [analyze_page, hh, zeroMetrics]
      · simp only [analyze_page, if_neg hh]
        exact core_density_nonneg _ _ _
  · intro h url keyword hne
    simp only [analyze_page, if_neg hne]
    exact core_density_spec _ _ _

/-- Claim C3 counterexample.  The body `"aaa"` with keyword `"a"` has one
word and three substring occurrences, so the density is 3, outside of the
claimed interval `[0, 1]`. -/
theorem keyword_density_gt_one_counterexample :
    ¬ ((analyze_page (some "aaa") "u" "a").keyword_density ≤ 1) := by
  have h3 : (analyze_page (some "aaa") "u" "a").keyword_density = 3 := by
    have hne : ("aaa" : String) ≠ "" := by decide
    simp only [analyze_page, if_neg hne]
    rw [core_density_spec]
    have hwc : (pyWords (collapseWs (parseHtml "aaa").text.data)).length = 1 := by decide
    have hct : pyCount (pyLower "a").data
        (pyLower ⟨collapseWs (parseHtml "aaa").text.data⟩).data = 3 := by decide
    rw [hwc, hct]
    norm_num
  rw [h3]; norm_num

/-- Claim C3 witness: the density formula applied to a concrete non-empty
page. -/
theorem keyword_density_formula_witness :
    (analyze_page (some "aaa") "u" "a").keyword_density =
      if 0 < (analyze_page (some "aaa") "u" "a").word_count
      then (pyCount (pyLower "a").data
            (pyLower ⟨collapseWs (parseHtml "aaa").text.data⟩).data : ℚ) /
           ((analyze_page (some "aaa") "u" "a").word_count : ℚ)
      else 0 :=
  keyword_density_nonneg_formula.2 "aaa" "u" "a" (by decide)

/-- Claim C4 (confirmed).  For every input the returned score is the sum of
the six independent non-negative bonuses (+2 title, +2 h1, +1 description,
+1 url, +2 word-count band 800-2500, +1 density band 0.005-0.03) read back
from the returned metrics, hence never exceeds 9; the score is monotone in
the six scoring conditions; and on scenario C (title "Best Running Shoes",
keyword "running shoes", 1000 words, density 0.01, all other checks false)
the score is 5. -/
theorem analyze_page_score_characterization :
    (∀ (html : Option String) (url keyword : String),
      (analyze_page html url keyword).score = scoreBonusSum (analyze_page html url keyword) ∧
      (analyze_page html url keyword).score ≤ 9) ∧
    (∀ (html₁ : Option String) (url₁ kw₁ : String)
        (html₂ : Option String) (url₂ kw₂ : String),
      ((analyze_page html₁ url₁ kw₁).keyword_in_title = true →
        (analyze_page html₂ url₂ kw₂).keyword_in_title = true) →
      ((analyze_page html₁ url₁ kw₁).keyword_in_h1 = true →
        (analyze_page html₂ url₂ kw₂).keyword_in_h1 = true) →
      ((analyze_page html₁ url₁ kw₁).keyword_in_description = true →
        (analyze_page html₂ url₂ kw₂).keyword_in_description = true) →
      ((analyze_page html₁ url₁ kw₁).keyword_in_url = true →
        (analyze_page html₂ url₂ kw₂).keyword_in_url = true) →
      (800 ≤ (analyze_page html₁ url₁ kw₁).word_count ∧
          (analyze_page html₁ url₁ kw₁).word_count ≤ 2500 →
        800 ≤ (analyze_page html₂ url₂ kw₂).word_count ∧
          (analyze_page html₂ url₂ kw₂).word_count ≤ 2500) →
      ((0.005 : ℚ) ≤ (analyze_page html₁ url₁ kw₁).keyword_density ∧
          (analyze_page html₁ url₁ kw₁).keyword_density ≤ (0.03 : ℚ) →
        (0.005 : ℚ) ≤ (analyze_page html₂ url₂ kw₂).keyword_density ∧
          (analyze_page html₂ url₂ kw₂).keyword_density ≤ (0.03 : ℚ)) →
      (analyze_page html₁ url₁ kw₁).score ≤ (analyze_page html₂ url₂ kw₂).score) ∧
    (analyze_page (some scenarioCHtml) "https://ex.am/p" "running shoes").title =
      "Best Running Shoes" ∧
    (analyze_page (some scenarioCHtml) "https://ex.am/p" "running shoes").word_count = 1000 ∧
    (analyze_page (some scenarioCHtml) "https://ex.am/p" "running shoes").keyword_density
      = 1 / 100 ∧
    (analyze_page (some scenarioCHtml) "https://ex.am/p" "running shoes").keyword_in_title
      = true ∧
    (analyze_page (some scenarioCHtml) "https://ex.am/p" "running shoes").keyword_in_h1
      = false ∧
    (analyze_page (some scenarioCHtml) "https://ex.am/p" "running shoes").keyword_in_description
      = false ∧
    (analyze_page (some scenarioCHtml) "https://ex.am/p" "running shoes").keyword_in_url
      = false ∧
    (analyze_page (some scenarioCHtml) "https://ex.am/p" "running shoes").score = 5 := by
  refine ⟨?_, ?_, scenC_title, scenC_wc, scenC_density, scenC_flag_title, scenC_flag_h1,
    scenC_flag_desc, scenC_flag_url, scenC_score⟩
  · intro html url keyword
    refine ⟨analyze_score_spec html url keyword, ?_⟩
    rw [analyze_score_spec]
    exact scoreBonusSum_le_nine _
  · intro html₁ url₁ kw₁ html₂ url₂ kw₂ h1 h2 h3 h4 h5 h6
    rw [analyze_score_spec, analyze_score_spec]
    exact scoreBonusSum_mono _ _ h1 h2 h3 h4 h5 h6

/-- Claim C4 witness: the monotonicity conjunct instantiated with its six
condition implications discharged on the scenario C input. -/
theorem analyze_page_score_characterization_witness :
    (analyze_page (some scenarioCHtml) "https://ex.am/p" "running shoes").score ≤
      (analyze_page (some scenarioCHtml) "https://ex.am/p" "running shoes").score :=
  analyze_page_score_characterization.2.1 (some scenarioCHtml) "https://ex.am/p" "running shoes"
    (some scenarioCHtml) "https://ex.am/p" "running shoes"
    (fun h => h) (fun h => h) (fun h => h) (fun h => h) (fun h => h) (fun h => h)

/-- Claim C5 (corrected).  For every domain string with no character at or
below the space character, no `'/'`, `'?'` or `'#'`, and whose lowercase
form does not begin with `"www."`, the three spellings `"https://www." + D`,
`"www." + D` and `D` normalise to the same domain; the unrestricted claim
fails, e.g. when `D` itself begins with `"www."`. -/
theorem normalize_www_invariant :
    ∀ D : String, (∀ c ∈ D.data, 32 < c.toNat) →
      (∀ c ∈ D.data, c ≠ '/' ∧ c ≠ '?' ∧ c ≠ '#') →
      pyStartsWith (pyLower D) "www." = false →
      normalize_target_domain ("https://www." ++ D) = normalize_target_domain D ∧
      normalize_target_domain ("www." ++ D) = normalize_target_domain D := by
  intro D h1 h2 h3
  have h3' : "www.".data.isPrefixOf (D.data.map Char.toLower) = false := h3
  unfold normalize_target_domain
  constructor
  · rw [String.data_append, normalizeL_https D.data h1 h2, normalizeL_nohttp D.data h1 h2 h3']
  · rw [String.data_append, normalizeL_www_mid D.data h1 h2, normalizeL_nohttp D.data h1 h2 h3']

/-- Claim C5 counterexample.  For `D = "www.x.com"` the three spellings do
not normalise identically: the bare form loses its `"www."` while the two
prefixed forms keep it. -/
theorem normalize_www_counterexample :
    ¬ (normalize_target_domain ("https://www." ++ "www.x.com") =
          normalize_target_domain "www.x.com" ∧
        normalize_target_domain ("www." ++ "www.x.com") =
          normalize_target_domain "www.x.com") := by decide

/-- Claim C5 witness: the invariance applied to the clean domain
`"example.com"`. -/
theorem normalize_www_invariant_witness :
    normalize_target_domain ("https://www." ++ "example.com") =
        normalize_target_domain "example.com" ∧
      normalize_target_domain ("www." ++ "example.com") =
        normalize_target_domain "example.com" :=
  normalize_www_invariant "example.com" (by decide) (by decide) (by decide)

/-- Claim C6 (confirmed).  `find_all_domain_positions` always returns its
hits sorted ascending by position, and on a SERP list sorted ascending by
position (the spec's data-model invariant) a non-empty result starts with
exactly the `(rank, url)` pair of `find_domain_rank`. -/
theorem find_all_positions_sorted_head :
    (∀ (results : List SerpResult) (target : String),
      List.Sorted hitLE (find_all_domain_positions results target)) ∧
    (∀ (results : List SerpResult) (target : String) (h : DomainHit) (rest : List DomainHit),
      results.Pairwise posLE →
      find_all_domain_positions results target = h :: rest →
      find_domain_rank results target = (some h.position, some h.url)) := by
  constructor
  · intro results target
    exact List.sorted_insertionSort hitLE _
  · intro results target h rest hpw heq
    have hsorted : List.Pairwise hitLE
        (find_all_domain_positions_go (normalize_target_domain target) results) :=
      go_all_pairwise _ results hpw
    have hid : find_all_domain_positions results target =
        find_all_domain_positions_go (normalize_target_domain target) results :=
      List.Sorted.insertionSort_eq hsorted
    rw [hid] at heq
    unfold find_domain_rank
    rw [go_fdr_head, heq]

/-- Claim C6 witness: the head of the hit list agrees with
`find_domain_rank` on a concrete sorted input with two matches. -/
theorem find_all_positions_sorted_head_witness :
    find_domain_rank
      [⟨some "https://a.com/", some 1⟩, ⟨some "https://blog.example.com/x", some 2⟩,
        ⟨some "https://example.com/y", some 7⟩] "example.com" =
      (some (2 : Int), some "https://blog.example.com/x") :=
  find_all_positions_sorted_head.2 _ "example.com" ⟨2, "https://blog.example.com/x"⟩
    [⟨7, "https://example.com/y"⟩] (by decide) (by decide)

/-- Claim C7 (confirmed).  On present HTML whose extracted body text has no
words, the returned density is exactly 0: the division is guarded by the
positivity test on `word_count`. -/
theorem zero_words_zero_density (h url keyword : String)
    (hwc : (analyze_page (some h) url keyword).word_count = 0) :
    (analyze_page (some h) url keyword).keyword_density = 0 := by
  by_cases hh : h = ""
  · simp [analyze_page, hh, zeroMetrics]
  · simp only [analyze_page, if_neg hh] at hwc ⊢
    revert hwc
    simp only [analyze_page_core]
    intro hwc
    simp [hwc]

/-- Claim C7 witness: a whitespace-only page has zero words and zero
density. -/
theorem zero_words_zero_density_witness :
    (analyze_page (some " ") "u" "k").word_count = 0 ∧
      (analyze_page (some " ") "u" "k").keyword_density = 0 :=
  ⟨by decide, zero_words_zero_density " " "u" "k" (by decide)⟩

/-- Claim C8 (confirmed).  With absent HTML, `analyze_page` returns the
zeroed/empty record — empty title, description and h1, zero word count,
all four keyword flags false, zero density and zero score — as a total
function, for every url and keyword. -/
theorem analyze_page_absent_zeroed (url keyword : String) :
    analyze_page none url keyword =
      { url := url, title := "", meta_description := "", h1 := "", word_count := 0,
        keyword_in_title := false, keyword_in_description := false, keyword_in_h1 := false,
        keyword_in_url := false, keyword_density := 0, score := 0 } := rfl

/-- Claim C9 (confirmed).  All three rank lookups skip an entry whose link
is absent or empty or whose position is absent, and when no entry matches
the target domain, `find_domain_rank` returns `(none, none)` and
`find_all_domain_positions` returns the empty list — all as total
functions. -/
theorem invalid_skipped_no_match_absent :
    (∀ (r : SerpResult) (results : List SerpResult) (target : String),
      (r.link = none ∨ r.link = some "" ∨ r.position = none) →
      find_domain_rank (r :: results) target = find_domain_rank results target ∧
      find_all_domain_positions (r :: results) target = find_all_domain_positions results target ∧
      find_url_rank (r :: results) target = find_url_rank results target) ∧
    (∀ (results : List SerpResult) (target : String),
      (∀ r ∈ results, entryDomainMatch (normalize_target_domain target) r = false) →
      find_domain_rank results target = (none, none) ∧
      find_all_domain_positions results target = []) := by
  constructor
  · intro r results target hinv
    obtain ⟨h1, h2, h3⟩ := go_skip_invalid (normalize_target_domain target) r results hinv
    refine ⟨h1, ?_, ?_⟩
    · unfold find_all_domain_positions
      rw [h2]
    · unfold find_url_rank
      by_cases hs : pyStrip target = ""
      · rw [if_pos hs, if_pos hs]
      · rw [if_neg hs, if_neg hs]
        exact go_skip_invalid _ r results hinv |>.2.2
  · intro results target hall
    obtain ⟨h1, h2⟩ := go_all_none (normalize_target_domain target) results hall
    exact ⟨h1, by unfold find_all_domain_positions; rw [h2]; rfl⟩

/-- Claim C9 witness: an empty-link entry is skipped, and scenario D (no
matching entry) yields the absent pair and the empty list. -/
theorem invalid_skipped_no_match_absent_witness :
    (find_domain_rank [⟨some "", some 1⟩, ⟨some "https://x.com", some 2⟩] "x.com" =
      find_domain_rank [⟨some "https://x.com", some 2⟩] "x.com") ∧
    (find_domain_rank [⟨some "https://a.com/", some 1⟩] "example.com" = (none, none) ∧
      find_all_domain_positions [⟨some "https://a.com/", some 1⟩] "example.com" = []) :=
  ⟨(invalid_skipped_no_match_absent.1 ⟨some "", some 1⟩ [⟨some "https://x.com", some 2⟩] "x.com"
      (Or.inr (Or.inl rfl))).1,
    invalid_skipped_no_match_absent.2 [⟨some "https://a.com/", some 1⟩] "example.com" (by decide)⟩

/-- Claim C10 (confirmed).  On present non-empty HTML and any url, the
empty keyword makes all four keyword-presence checks true, the empty
string being a substring of every string. -/
theorem empty_keyword_all_flags (h url : String) (hne : h ≠ "") :
    (analyze_page (some h) url "").keyword_in_title = true ∧
    (analyze_page (some h) url "").keyword_in_description = true ∧
    (analyze_page (some h) url "").keyword_in_h1 = true ∧
    (analyze_page (some h) url "").keyword_in_url = true := by
  simp only [analyze_page, if_neg hne]
  have hlow : pyLower "" = ⟨[]⟩ := rfl
  simp only [analyze_page_core, hlow]
  refine ⟨?_, ?_, ?_, ?_⟩ <;> simp [pyIn, pySub_nil, replaceSpaceDash]

/-- Claim C10 witness: the four flags on a concrete one-character page. -/
theorem empty_keyword_all_flags_witness :
    ("x" : String) ≠ "" ∧
    ((analyze_page (some "x") "u" "").keyword_in_title = true ∧
      (analyze_page (some "x") "u" "").keyword_in_description = true ∧
      (analyze_page (some "x") "u" "").keyword_in_h1 = true ∧
      (analyze_page (some "x") "u" "").keyword_in_url = true) :=
  ⟨by decide, empty_keyword_all_flags "x" "u" (by decide)⟩
